import Mathlib

/-!
Verification of the lead-management backend's filter-query builder,
pagination executor and CRUD routes (routes/leads.js, database/init.js).

The JavaScript source is shallowly embedded:
* `JVal` models the JavaScript/JSON value domain (including `undefined`),
  with `truthy`, property access `getField`, and string coercion
  `jsToString` mirroring the JS semantics the source relies on.
* `buildWhereClause` embeds the source's `buildWhereClause(filters, userId)`.
  The source accumulates a SQL string and a parameter array by repeated
  `+=` / `push`; here each appended fragment is recorded as an `Atom`
  (one atom per `AND`-clause, carrying its bound values), and
  `buildWhereClause` concatenates the atoms' verbatim fragments and
  bound-value lists in the source's order.
* `executeList`, `getLeadsRoute`, `createLeadRoute`, `getLeadRoute`,
  `updateLeadRoute`, `deleteLeadRoute` embed the route handlers, with the
  SQLite store modelled as a `List Lead` state.
-/

/-- JavaScript value domain: JSON values plus `undefined`.
Numbers are modelled as integers (no claim depends on fractional values). -/
inductive JVal where
  | undefined : JVal
  | null : JVal
  | bool : Bool → JVal
  | num : Int → JVal
  | str : String → JVal
  | arr : List JVal → JVal
  | obj : List (String × JVal) → JVal

/-- JavaScript truthiness: `undefined`, `null`, `false`, `0`, `""` are falsy;
objects and arrays are always truthy. -/
def truthy : JVal → Bool
  | .undefined => false
  | .null => false
  | .bool b => b
  | .num n => n != 0
  | .str s => s != ""
  | .arr _ => true
  | .obj _ => true

/-- JavaScript property access `v[k]`: defined on objects, `undefined`
otherwise (object keys are unique after `JSON.parse`, so first-match
lookup is exact). -/
def getField (v : JVal) (k : String) : JVal :=
  match v with
  | .obj fs =>
    match fs.lookup k with
    | some w => w
    | none => .undefined
  | _ => .undefined

/-- JavaScript array indexing `v[i]`: `undefined` when out of range or not
an array. -/
def arrIdx (v : JVal) (i : Nat) : JVal :=
  match v with
  | .arr xs => xs.getD i .undefined
  | _ => .undefined

/-- Array.isArray. -/
def isArr : JVal → Bool
  | .arr _ => true
  | _ => false

mutual

/-- JavaScript string coercion, as performed by the template literal
interpolation in the source. -/
def jsToString : JVal → String
  | .undefined => "undefined"
  | .null => "null"
  | .bool true => "true"
  | .bool false => "false"
  | .num n => toString n
  | .str s => s
  | .arr xs => jsArrToString xs
  | .obj _ => "[object Object]"

/-- JavaScript Array.prototype.toString: elements joined by commas, with
`null` and `undefined` elements rendered empty. -/
def jsArrToString : List JVal → String
  | [] => ""
  | v :: vs =>
    (match v with
     | .undefined => ""
     | .null => ""
     | w => jsToString w)
    ++ (if vs.isEmpty then "" else ",") ++ jsArrToString vs

end

/-- One conjunct of the compiled predicate, recording the SQL fragment's
shape and the bound values pushed alongside it (in order). -/
inductive Atom where
  | scope : Int → Atom
  | eqCol : String → JVal → Atom
  | likeCol : String → String → Atom
  | inCol : String → List JVal → Atom
  | gtCol : String → JVal → Atom
  | ltCol : String → JVal → Atom
  | betweenCol : String → JVal → JVal → Atom
  | sameDayCol : String → JVal → Atom

/-- Placeholder list `value.map(() => '?').join(',')` for `n` elements:
the tail after the first placeholder. -/
def qmarksTail : Nat → String
  | 0 => ""
  | n + 1 => ",?" ++ qmarksTail n

/-- Placeholders joined by commas: `""`, `"?"`, `"?,?"`, ... -/
def qmarks : Nat → String
  | 0 => ""
  | n + 1 => "?" ++ qmarksTail n

/-- The verbatim SQL fragment the source appends to `whereClause` for this
clause. -/
def Atom.fragment : Atom → String
  | .scope _ => "WHERE user_id = ?"
  | .eqCol col _ => " AND " ++ col ++ " = ?"
  | .likeCol col _ => " AND " ++ col ++ " LIKE ?"
  | .inCol col vs => " AND " ++ col ++ " IN (" ++ qmarks vs.length ++ ")"
  | .gtCol col _ => " AND " ++ col ++ " > ?"
  | .ltCol col _ => " AND " ++ col ++ " < ?"
  | .betweenCol col _ _ => " AND " ++ col ++ " BETWEEN ? AND ?"
  | .sameDayCol col _ => " AND DATE(" ++ col ++ ") = DATE(?)"

/-- The values the source pushes onto `params` for this clause, in order. -/
def Atom.binds : Atom → List JVal
  | .scope uid => [.num uid]
  | .eqCol _ v => [v]
  | .likeCol _ p => [.str p]
  | .inCol _ vs => vs
  | .gtCol _ v => [v]
  | .ltCol _ v => [v]
  | .betweenCol _ lo hi => [lo, hi]
  | .sameDayCol _ v => [v]

/-- String-field block of `buildWhereClause` (email, company, city):
`equals` and `contains` (the latter binding the `%value%` pattern). -/
def textAtoms (col : String) (f : JVal) : List Atom :=
  if truthy f then
    match getField f "operator" with
    | .str "equals" => [.eqCol col (getField f "value")]
    | .str "contains" => [.likeCol col ("%" ++ jsToString (getField f "value") ++ "%")]
    | _ => []
  else []

/-- Enum-field block (status, source): `equals`, and `in` guarded by
`Array.isArray(value)`. -/
def enumAtoms (col : String) (f : JVal) : List Atom :=
  if truthy f then
    match getField f "operator" with
    | .str "equals" => [.eqCol col (getField f "value")]
    | .str "in" =>
      match getField f "value" with
      | .arr xs => [.inCol col xs]
      | _ => []
    | _ => []
  else []

/-- Number-field block (score, lead_value): `equals`, `gt`, `lt`, and
`between` guarded only by `Array.isArray(value)` — it binds `value[0]`
and `value[1]` whatever the array's length. -/
def numAtoms (col : String) (f : JVal) : List Atom :=
  if truthy f then
    match getField f "operator" with
    | .str "equals" => [.eqCol col (getField f "value")]
    | .str "gt" => [.gtCol col (getField f "value")]
    | .str "lt" => [.ltCol col (getField f "value")]
    | .str "between" =>
      if isArr (getField f "value") then
        [.betweenCol col (arrIdx (getField f "value") 0) (arrIdx (getField f "value") 1)]
      else []
    | _ => []
  else []

/-- Date-field block (created_at, last_activity_at): `on`, `before`,
`after`, and `between` guarded only by `Array.isArray(value)`. -/
def dateAtoms (col : String) (f : JVal) : List Atom :=
  if truthy f then
    match getField f "operator" with
    | .str "on" => [.sameDayCol col (getField f "value")]
    | .str "before" => [.ltCol col (getField f "value")]
    | .str "after" => [.gtCol col (getField f "value")]
    | .str "between" =>
      if isArr (getField f "value") then
        [.betweenCol col (arrIdx (getField f "value") 0) (arrIdx (getField f "value") 1)]
      else []
    | _ => []
  else []

/-- Boolean block: `filters.is_qualified !== undefined` adds the clause,
binding `1` or `0` by truthiness of the raw value. -/
def boolAtoms (f : JVal) : List Atom :=
  match f with
  | .undefined => []
  | v => [.eqCol "is_qualified" (.num (if truthy v then 1 else 0))]

/-- The clause list produced by `buildWhereClause(filters, userId)`:
the tenant-scope clause, then — unless `filters` is falsy (the early
`if (!filters) return`) — the field blocks in source order. -/
def buildClauses (filters : JVal) (userId : Int) : List Atom :=
  Atom.scope userId ::
  (if truthy filters then
    textAtoms "email" (getField filters "email")
    ++ textAtoms "company" (getField filters "company")
    ++ textAtoms "city" (getField filters "city")
    ++ enumAtoms "status" (getField filters "status")
    ++ enumAtoms "source" (getField filters "source")
    ++ numAtoms "score" (getField filters "score")
    ++ numAtoms "lead_value" (getField filters "lead_value")
    ++ dateAtoms "created_at" (getField filters "created_at")
    ++ dateAtoms "last_activity_at" (getField filters "last_activity_at")
    ++ boolAtoms (getField filters "is_qualified")
  else [])

/-- Concatenation of the fragments, as the source's successive
`whereClause += ...` produces. -/
def concatFrags : List Atom → String
  | [] => ""
  | a :: as => a.fragment ++ concatFrags as

/-- Concatenation of the bound values, as the source's successive
`params.push(...)` produces. -/
def concatBinds : List Atom → List JVal
  | [] => []
  | a :: as => a.binds ++ concatBinds as

/-- buildWhereClause(filters, userId): the `{ whereClause, params }` pair
returned by the source. -/
def buildWhereClause (filters : JVal) (userId : Int) : String × List JVal :=
  (concatFrags (buildClauses filters userId),
   concatBinds (buildClauses filters userId))

/-- Number of `?` placeholders in a SQL string. -/
def countQ (s : String) : Nat := s.data.count '?'

/-! ### Record store and query semantics

The record store (SQLite) is an external collaborator of the core: the
following value comparison, `LIKE` matching, `DATE()` coercion and row
ordering are modelled from the spec's description of the store
(§1 "Record store", §4.1 operator table, §4.2 ordering rule). -/

/-- A row of the `leads` table (database/init.js, `createLeadsTable`).
Optional text columns are plain strings (their nullability is irrelevant
to every claim); `last_activity_at` is nullable; timestamps are ISO-8601
strings, which the store compares lexicographically. -/
structure Lead where
  id : Int
  user_id : Int
  first_name : String
  last_name : String
  email : String
  phone : String
  company : String
  city : String
  state : String
  source : String
  status : String
  score : Int
  lead_value : Int
  is_qualified : Bool
  last_activity_at : Option String
  created_at : String
  updated_at : String
deriving DecidableEq, Repr

/-- Modelled from the spec: the stored value of a named column, as the
value the store compares bound parameters against (`is_qualified` is
stored as 0/1, as the source binds it). -/
def rowGet (r : Lead) (col : String) : JVal :=
  if col = "id" then .num r.id
  else if col = "user_id" then .num r.user_id
  else if col = "first_name" then .str r.first_name
  else if col = "last_name" then .str r.last_name
  else if col = "email" then .str r.email
  else if col = "phone" then .str r.phone
  else if col = "company" then .str r.company
  else if col = "city" then .str r.city
  else if col = "state" then .str r.state
  else if col = "source" then .str r.source
  else if col = "status" then .str r.status
  else if col = "score" then .num r.score
  else if col = "lead_value" then .num r.lead_value
  else if col = "is_qualified" then .num (if r.is_qualified then 1 else 0)
  else if col = "last_activity_at" then
    match r.last_activity_at with
    | some s => .str s
    | none => .null
  else if col = "created_at" then .str r.created_at
  else if col = "updated_at" then .str r.updated_at
  else .undefined

/-- Modelled from the spec: store equality of a stored value and a bound
value — numbers by value, text exactly; comparisons involving NULL or
mismatched types match nothing. -/
def jEq : JVal → JVal → Bool
  | .num a, .num b => a == b
  | .str a, .str b => a == b
  | .bool a, .bool b => a == b
  | _, _ => false

/-- Strict lexicographic order on character lists (by code point). -/
def lexLt : List Char → List Char → Bool
  | [], [] => false
  | [], _ :: _ => true
  | _ :: _, [] => false
  | a :: as, b :: bs =>
    if a.toNat < b.toNat then true
    else if b.toNat < a.toNat then false
    else lexLt as bs

/-- Reflexive lexicographic order on character lists. -/
def lexLe : List Char → List Char → Bool
  | [], _ => true
  | _ :: _, [] => false
  | a :: as, b :: bs =>
    if a.toNat < b.toNat then true
    else if b.toNat < a.toNat then false
    else lexLe as bs

/-- Modelled from the spec: the store's strict `<` on a stored value and a
bound value — numbers numerically, text lexicographically. -/
def jLt : JVal → JVal → Bool
  | .num a, .num b => decide (a < b)
  | .str a, .str b => lexLt a.data b.data
  | _, _ => false

/-- Modelled from the spec: the store's `≤`, as used by `BETWEEN`
(inclusive on both ends). -/
def jLe (a b : JVal) : Bool := jEq a b || jLt a b

/-- Whether `n` occurs as a contiguous sublist of `h`. -/
def isInfixB (n : List Char) : List Char → Bool
  | [] => n.isEmpty
  | c :: t => n.isPrefixOf (c :: t) || isInfixB n t

/-- Characters of a `LIKE` pattern with the leading and trailing `%`
wildcards removed (the source only builds `%text%` patterns). -/
def stripPct (l : List Char) : List Char :=
  ((l.dropWhile (fun c => c == '%')).reverse.dropWhile (fun c => c == '%')).reverse

/-- Modelled from the spec: `LIKE` with a `%text%` pattern — case-insensitive
substring match. -/
def likeSat (pat s : String) : Bool :=
  isInfixB ((stripPct pat.data).map Char.toLower) (s.data.map Char.toLower)

/-- Modelled from the spec: SQLite `DATE(x)` — the calendar-day part of an
ISO-8601 timestamp (its first 10 characters). -/
def dateOnly : JVal → String
  | .str s => s.take 10
  | _ => ""

/-- Modelled from the spec: whether a row satisfies one compiled clause. -/
def atomSat (r : Lead) : Atom → Bool
  | .scope uid => r.user_id == uid
  | .eqCol col v => jEq (rowGet r col) v
  | .likeCol col pat => likeSat pat (jsToString (rowGet r col))
  | .inCol col vs => vs.any (fun v => jEq (rowGet r col) v)
  | .gtCol col v => jLt v (rowGet r col)
  | .ltCol col v => jLt (rowGet r col) v
  | .betweenCol col lo hi => jLe lo (rowGet r col) && jLe (rowGet r col) hi
  | .sameDayCol col v => dateOnly (rowGet r col) == dateOnly v

/-- The rows of the store satisfying the compiled predicate for this
filter document and tenant (the result set both the count query and the
row query range over). -/
def execList (st : List Lead) (filters : JVal) (uid : Int) : List Lead :=
  st.filter fun r => (buildClauses filters uid).all (atomSat r)

/-- Insert into a list sorted by `le`, keeping it sorted. -/
def insertSorted {α : Type} (le : α → α → Bool) (a : α) : List α → List α
  | [] => [a]
  | b :: bs => if le a b then a :: b :: bs else b :: insertSorted le a bs

/-- Insertion sort by `le` (a model of the store's `ORDER BY`; the spec
leaves tie order unspecified). -/
def sortByLe {α : Type} (le : α → α → Bool) : List α → List α
  | [] => []
  | a :: as => insertSorted le a (sortByLe le as)

/-- ORDER BY created_at DESC: `a` may precede `b` when its `created_at`
is not smaller. -/
def byNewest (a b : Lead) : Bool := lexLe b.created_at.data a.created_at.data

/-- Math.ceil(t / l) for natural `t` and positive `l`
(`mathCeilDiv_eq_ceil` certifies the correspondence to the exact
rational ceiling). -/
def mathCeilDiv (t l : Nat) : Nat := (t + l - 1) / l

/-- The response envelope of the list endpoint. -/
structure Envelope where
  data : List Lead
  page : Nat
  limit : Nat
  total : Nat
  totalPages : Nat
deriving DecidableEq, Repr

/-- The body of the list endpoint after validation: `offset = (page-1)*limit`,
`total` from the count query, `totalPages = Math.ceil(total/limit)`, rows
ordered newest-first and bounded by `LIMIT ? OFFSET ?`. -/
def executeList (st : List Lead) (filters : JVal) (uid : Int)
    (page limit : Nat) : Envelope :=
  let offset := (page - 1) * limit
  let matching := execList st filters uid
  let total := matching.length
  let totalPages := mathCeilDiv total limit
  { data := ((sortByLe byNewest matching).drop offset).take limit
    page := page
    limit := limit
    total := total
    totalPages := totalPages }

/-- The count query the list endpoint issues (query text and bound values). -/
def countQuery (filters : JVal) (uid : Int) : String × List JVal :=
  ("SELECT COUNT(*) as total FROM leads " ++ (buildWhereClause filters uid).1,
   (buildWhereClause filters uid).2)

/-- The row query the list endpoint issues: same predicate, newest-first
order, with `limit` then `offset` appended to the bound values. -/
def rowsQuery (filters : JVal) (uid : Int) (limit offset : Int) : String × List JVal :=
  ("SELECT * FROM leads " ++ (buildWhereClause filters uid).1
     ++ " ORDER BY created_at DESC LIMIT ? OFFSET ?",
   (buildWhereClause filters uid).2 ++ [.num limit, .num offset])

/-- The distinct response shapes of the lead routes, by status and error
text of the source: 200 `okList`/`okLead`/`okDeleted`, 201 `okCreated`,
400 `validationError` (error "Validation Error") and `invalidFilters`
(error "Invalid filters"), 404 `notFound` (error "Lead not found",
message "Lead does not exist" — identical across get/update/delete),
409 `conflict` (with the route's error and message), 500 `dbError`. -/
inductive Resp where
  | okList : Envelope → Resp
  | okLead : Lead → Resp
  | okCreated : Lead → Resp
  | okDeleted : Resp
  | validationError : Resp
  | invalidFilters : Resp
  | notFound : Resp
  | conflict : String → String → Resp
  | dbError : String → Resp
deriving DecidableEq, Repr

/-- HTTP status of each response shape, as set by the source. -/
def Resp.status : Resp → Nat
  | .okList _ => 200
  | .okLead _ => 200
  | .okCreated _ => 201
  | .okDeleted => 200
  | .validationError => 400
  | .invalidFilters => 400
  | .notFound => 404
  | .conflict _ _ => 409
  | .dbError _ => 500

/-- express-validator check `query('page').optional().isInt({ min: 1 })`. -/
def validPageQ : Option Int → Bool
  | none => true
  | some p => decide (1 ≤ p)

/-- express-validator check `query('limit').optional().isInt({ min: 1, max: 100 })`. -/
def validLimitQ : Option Int → Bool
  | none => true
  | some l => decide (1 ≤ l ∧ l ≤ 100)

/-- GET / (list): validation, then `JSON.parse` of the `filters` query
parameter (the parser itself is the platform's; it is passed in as
`parse`, with `none` for a parse failure), then the count and row reads.
The second component counts the store reads issued. -/
def getLeadsRoute (parse : String → Option JVal) (st : List Lead) (uid : Int)
    (pageQ limitQ : Option Int) (filtersQ : Option String) : Resp × Nat :=
  if validPageQ pageQ && validLimitQ limitQ then
    let page := (pageQ.getD 1).toNat
    let limit := (limitQ.getD 20).toNat
    match filtersQ with
    | none => (.okList (executeList st .null uid page limit), 2)
    | some s =>
      match parse s with
      | none => (.invalidFilters, 0)
      | some f => (.okList (executeList st f uid page limit), 2)
  else (.validationError, 0)

/-- AUTOINCREMENT id assignment of the store (modelled from the spec:
ids are store-assigned and unique). -/
def nextId (st : List Lead) : Int := (st.foldr (fun r m => max r.id m) 0) + 1

/-- A validated request body for create/update (after the destructuring
defaults `status = 'new'`, `score = 0`, `lead_value = 0`,
`is_qualified = false` of the source). -/
structure LeadBody where
  first_name : String
  last_name : String
  email : String
  phone : String
  company : String
  city : String
  state : String
  source : String
  status : String
  score : Int
  lead_value : Int
  is_qualified : Bool
deriving DecidableEq, Repr

/-- POST / (create): duplicate-email pre-check scoped to the tenant, then
insert with `last_activity_at = new Date().toISOString()` (`now`); on a
duplicate, 409 and no insert. -/
def createLeadRoute (st : List Lead) (uid : Int) (b : LeadBody) (now : String) :
    Resp × List Lead :=
  match st.find? (fun r => r.user_id == uid && r.email == b.email) with
  | some _ =>
    (.conflict "Lead already exists" "A lead with this email already exists", st)
  | none =>
    let r : Lead :=
      { id := nextId st
        user_id := uid
        first_name := b.first_name
        last_name := b.last_name
        email := b.email
        phone := b.phone
        company := b.company
        city := b.city
        state := b.state
        source := b.source
        status := b.status
        score := b.score
        lead_value := b.lead_value
        is_qualified := b.is_qualified
        last_activity_at := some now
        created_at := now
        updated_at := now }
    (.okCreated r, st ++ [r])

/-- GET /:id — `SELECT * FROM leads WHERE id = ? AND user_id = ?`;
404 when no such row. -/
def getLeadRoute (st : List Lead) (i uid : Int) : Resp :=
  match st.find? (fun r => r.id == i && r.user_id == uid) with
  | some r => .okLead r
  | none => .notFound

/-- The UPDATE's column assignments, refreshing `updated_at`. -/
def applyBody (r : Lead) (b : LeadBody) (now : String) : Lead :=
  { r with
    first_name := b.first_name
    last_name := b.last_name
    email := b.email
    phone := b.phone
    company := b.company
    city := b.city
    state := b.state
    source := b.source
    status := b.status
    score := b.score
    lead_value := b.lead_value
    is_qualified := b.is_qualified
    updated_at := now }

/-- PUT /:id (update): ownership check, then duplicate-email-excluding-self
check, then the scoped UPDATE (404 if it changed no row), then a fetch of
the updated row by id. -/
def updateLeadRoute (st : List Lead) (i uid : Int) (b : LeadBody) (now : String) :
    Resp × List Lead :=
  match st.find? (fun r => r.id == i && r.user_id == uid) with
  | none => (.notFound, st)
  | some _ =>
    match st.find? (fun r => r.user_id == uid && r.email == b.email && r.id != i) with
    | some _ =>
      (.conflict "Email already exists" "Another lead with this email already exists", st)
    | none =>
      let st2 := st.map fun r =>
        if r.id == i && r.user_id == uid then applyBody r b now else r
      let changes := st.countP fun r => r.id == i && r.user_id == uid
      if changes == 0 then (.notFound, st2)
      else
        match st2.find? (fun r => r.id == i) with
        | some r2 => (.okLead r2, st2)
        | none => (.dbError "Failed to fetch updated lead", st2)

/-- DELETE /:id — `DELETE FROM leads WHERE id = ? AND user_id = ?`;
404 when `this.changes === 0`. -/
def deleteLeadRoute (st : List Lead) (i uid : Int) : Resp × List Lead :=
  let remaining := st.filter fun r => !(r.id == i && r.user_id == uid)
  if st.length - remaining.length == 0 then (.notFound, remaining)
  else (.okDeleted, remaining)

/-- The `(user_id, email)` uniqueness invariant of the `leads` table. -/
def UniqueEmails (st : List Lead) : Prop :=
  st.Pairwise fun a b => ¬(a.user_id = b.user_id ∧ a.email = b.email)

/-! ### Structural lemmas -/

theorem countQ_append (s t : String) : countQ (s ++ t) = countQ s + countQ t := by
  simp [countQ, String.data_append, List.count_append]

theorem countQ_qmarksTail : ∀ n, countQ (qmarksTail n) = n
  | 0 => rfl
  | n + 1 => by
    have h : countQ ",?" = 1 := by decide
    rw [qmarksTail, countQ_append, countQ_qmarksTail n, h]
    omega

theorem countQ_qmarks : ∀ n, countQ (qmarks n) = n
  | 0 => rfl
  | n + 1 => by
    have h : countQ "?" = 1 := by decide
    rw [qmarks, countQ_append, countQ_qmarksTail n, h]
    omega

theorem concatFrags_append (l₁ l₂ : List Atom) :
    concatFrags (l₁ ++ l₂) = concatFrags l₁ ++ concatFrags l₂ := by
  induction l₁ with
  | nil => simp [concatFrags]
  | cons a as ih => simp [concatFrags, ih, String.append_assoc]

theorem concatBinds_append (l₁ l₂ : List Atom) :
    concatBinds (l₁ ++ l₂) = concatBinds l₁ ++ concatBinds l₂ := by
  induction l₁ with
  | nil => simp [concatBinds]
  | cons a as ih => simp [concatBinds, ih]

theorem lookup_cons_ne {β : Type} {a k : String} (b : β) (es : List (String × β))
    (h : a ≠ k) : List.lookup a ((k, b) :: es) = List.lookup a es := by
  simp [List.lookup, beq_eq_false_iff_ne.mpr h]

theorem mem_execList {st : List Lead} {f : JVal} {uid : Int} {r : Lead} :
    r ∈ execList st f uid ↔ r ∈ st ∧ ∀ a ∈ buildClauses f uid, atomSat r a = true := by
  simp [execList, List.mem_filter, List.all_eq_true]

theorem atom_balanced_of_mem_textAtoms (col : String) (f : JVal) (hc : countQ col = 0) :
    ∀ a ∈ textAtoms col f, countQ a.fragment = a.binds.length := by
  intro a ha
  unfold textAtoms at ha
  split at ha
  · split at ha
    · simp at ha
      subst ha
      simp [Atom.fragment, Atom.binds, countQ_append, hc]
      decide
    · simp at ha
      subst ha
      simp [Atom.fragment, Atom.binds, countQ_append, hc]
      decide
    · simp at ha
  · simp at ha

theorem atom_balanced_of_mem_enumAtoms (col : String) (f : JVal) (hc : countQ col = 0) :
    ∀ a ∈ enumAtoms col f, countQ a.fragment = a.binds.length := by
  intro a ha
  unfold enumAtoms at ha
  split at ha
  · split at ha
    · simp at ha
      subst ha
      simp [Atom.fragment, Atom.binds, countQ_append, hc]
      decide
    · split at ha
      · simp at ha
        subst ha
        simp [Atom.fragment, Atom.binds, countQ_append, countQ_qmarks, hc]
        have h1 : countQ " AND " = 0 := by decide
        have h2 : countQ " IN (" = 0 := by decide
        have h3 : countQ ")" = 0 := by decide
        omega
      · simp at ha
    · simp at ha
  · simp at ha

theorem atom_balanced_of_mem_numAtoms (col : String) (f : JVal) (hc : countQ col = 0) :
    ∀ a ∈ numAtoms col f, countQ a.fragment = a.binds.length := by
  intro a ha
  unfold numAtoms at ha
  split at ha
  · split at ha
    · simp at ha
      subst ha
      simp [Atom.fragment, Atom.binds, countQ_append, hc]
      decide
    · simp at ha
      subst ha
      simp [Atom.fragment, Atom.binds, countQ_append, hc]
      decide
    · simp at ha
      subst ha
      simp [Atom.fragment, Atom.binds, countQ_append, hc]
      decide
    · split at ha
      · simp at ha
        subst ha
        simp [Atom.fragment, Atom.binds, countQ_append, hc]
        decide
      · simp at ha
    · simp at ha
  · simp at ha

theorem atom_balanced_of_mem_dateAtoms (col : String) (f : JVal) (hc : countQ col = 0) :
    ∀ a ∈ dateAtoms col f, countQ a.fragment = a.binds.length := by
  intro a ha
  unfold dateAtoms at ha
  split at ha
  · split at ha
    · simp at ha
      subst ha
      simp [Atom.fragment, Atom.binds, countQ_append, hc]
      decide
    · simp at ha
      subst ha
      simp [Atom.fragment, Atom.binds, countQ_append, hc]
      decide
    · simp at ha
      subst ha
      simp [Atom.fragment, Atom.binds, countQ_append, hc]
      decide
    · split at ha
      · simp at ha
        subst ha
        simp [Atom.fragment, Atom.binds, countQ_append, hc]
        decide
      · simp at ha
    · simp at ha
  · simp at ha

theorem atom_balanced_of_mem_boolAtoms (f : JVal) :
    ∀ a ∈ boolAtoms f, countQ a.fragment = a.binds.length := by
  intro a ha
  unfold boolAtoms at ha
  split at ha
  · simp at ha
  · simp at ha
    subst ha
    simp [Atom.fragment, Atom.binds]
    decide

theorem concat_balanced (l : List Atom)
    (h : ∀ a ∈ l, countQ a.fragment = a.binds.length) :
    countQ (concatFrags l) = (concatBinds l).length := by
  induction l with
  | nil => rfl
  | cons a as ih =>
    rw [concatFrags, concatBinds, countQ_append, List.length_append,
      h a (.head as), ih (fun b hb => h b (.tail a hb))]

theorem textAtoms_nop (col : String) (f : JVal)
    (h1 : getField f "operator" ≠ .str "equals")
    (h2 : getField f "operator" ≠ .str "contains") :
    textAtoms col f = [] := by
  unfold textAtoms
  split
  · split
    · rename_i heq
      exact absurd heq h1
    · rename_i heq
      exact absurd heq h2
    · rfl
  · rfl

theorem enumAtoms_nop (col : String) (f : JVal)
    (h1 : getField f "operator" ≠ .str "equals")
    (h2 : getField f "operator" ≠ .str "in") :
    enumAtoms col f = [] := by
  unfold enumAtoms
  split
  · split
    · rename_i heq
      exact absurd heq h1
    · rename_i heq
      exact absurd heq h2
    · rfl
  · rfl

theorem numAtoms_nop (col : String) (f : JVal)
    (h1 : getField f "operator" ≠ .str "equals")
    (h2 : getField f "operator" ≠ .str "gt")
    (h3 : getField f "operator" ≠ .str "lt")
    (h4 : getField f "operator" ≠ .str "between") :
    numAtoms col f = [] := by
  unfold numAtoms
  split
  · split
    · rename_i heq
      exact absurd heq h1
    · rename_i heq
      exact absurd heq h2
    · rename_i heq
      exact absurd heq h3
    · rename_i heq
      exact absurd heq h4
    · rfl
  · rfl

theorem dateAtoms_nop (col : String) (f : JVal)
    (h1 : getField f "operator" ≠ .str "on")
    (h2 : getField f "operator" ≠ .str "before")
    (h3 : getField f "operator" ≠ .str "after")
    (h4 : getField f "operator" ≠ .str "between") :
    dateAtoms col f = [] := by
  unfold dateAtoms
  split
  · split
    · rename_i heq
      exact absurd heq h1
    · rename_i heq
      exact absurd heq h2
    · rename_i heq
      exact absurd heq h3
    · rename_i heq
      exact absurd heq h4
    · rfl
  · rfl

theorem eqCol_mem_textAtoms {col c : String} {f : JVal} {w : JVal}
    (h : Atom.eqCol c w ∈ textAtoms col f) : c = col := by
  unfold textAtoms at h
  split at h
  · split at h <;> simp at h
    exact h.1
  · simp at h

theorem eqCol_mem_enumAtoms {col c : String} {f : JVal} {w : JVal}
    (h : Atom.eqCol c w ∈ enumAtoms col f) : c = col := by
  unfold enumAtoms at h
  split at h
  · split at h
    · simp at h
      exact h.1
    · split at h <;> simp at h
    · simp at h
  · simp at h

theorem eqCol_mem_numAtoms {col c : String} {f : JVal} {w : JVal}
    (h : Atom.eqCol c w ∈ numAtoms col f) : c = col := by
  unfold numAtoms at h
  split at h
  · split at h
    · simp at h
      exact h.1
    · simp at h
    · simp at h
    · split at h <;> simp at h
    · simp at h
  · simp at h

theorem eqCol_mem_dateAtoms {col c : String} {f : JVal} {w : JVal}
    (h : Atom.eqCol c w ∈ dateAtoms col f) : False := by
  unfold dateAtoms at h
  split at h
  · split at h
    · simp at h
    · simp at h
    · simp at h
    · split at h <;> simp at h
    · simp at h
  · simp at h

theorem eqCol_mem_boolAtoms {c : String} {f : JVal} {w : JVal}
    (h : Atom.eqCol c w ∈ boolAtoms f) :
    c = "is_qualified" ∧ f ≠ .undefined ∧ w = .num (if truthy f then 1 else 0) := by
  unfold boolAtoms at h
  split at h
  · simp at h
  · rename_i v hv
    simp at h
    refine ⟨h.1, ?_, h.2⟩
    intro hf
    rw [hf] at hv
    exact (hv rfl).elim

theorem lexLe_total : ∀ a b : List Char, (lexLe a b || lexLe b a) = true
  | [], [] => rfl
  | [], _ :: _ => rfl
  | _ :: _, [] => rfl
  | a :: as, b :: bs => by
    simp only [lexLe]
    rcases Nat.lt_trichotomy a.toNat b.toNat with h | h | h
    · simp [h]
    · simp [h, Nat.lt_irrefl]
      rcases Bool.or_eq_true _ _ |>.mp (lexLe_total as bs) with h2 | h2
      · exact Or.inl h2
      · exact Or.inr h2
    · simp [h, Nat.lt_asymm h]

theorem lexLe_trans : ∀ a b c : List Char,
    lexLe a b = true → lexLe b c = true → lexLe a c = true
  | [], _, _, _, _ => rfl
  | _ :: _, [], _, hab, _ => by simp [lexLe] at hab
  | _ :: _, _ :: _, [], _, hbc => by simp [lexLe] at hbc
  | a :: as, b :: bs, c :: cs, hab, hbc => by
    simp only [lexLe] at hab hbc ⊢
    rcases Nat.lt_trichotomy a.toNat b.toNat with h1 | h1 | h1
    · rcases Nat.lt_trichotomy b.toNat c.toNat with h2 | h2 | h2
      · simp [Nat.lt_trans h1 h2]
      · simp [h2 ▸ h1]
      · simp [h2, Nat.lt_asymm h2] at hbc
    · rcases Nat.lt_trichotomy b.toNat c.toNat with h2 | h2 | h2
      · simp [h1 ▸ h2]
      · have h3 : a.toNat = c.toNat := h1.trans h2
        simp [h1, Nat.lt_irrefl] at hab
        simp [h2, Nat.lt_irrefl] at hbc
        simp [h3, Nat.lt_irrefl]
        try exact lexLe_trans as bs cs hab hbc
      · simp [h2, Nat.lt_asymm h2] at hbc
    · simp [h1, Nat.lt_asymm h1] at hab

theorem byNewest_total (a b : Lead) : (byNewest a b || byNewest b a) = true := by
  unfold byNewest
  rw [Bool.or_comm]
  exact lexLe_total _ _

theorem byNewest_trans (a b c : Lead) :
    byNewest a b = true → byNewest b c = true → byNewest a c = true := by
  unfold byNewest
  intro h1 h2
  exact lexLe_trans _ _ _ h2 h1

theorem mem_insertSorted {α : Type} (le : α → α → Bool) (a x : α) :
    ∀ l : List α, x ∈ insertSorted le a l ↔ x = a ∨ x ∈ l
  | [] => by simp [insertSorted]
  | b :: bs => by
    unfold insertSorted
    by_cases hab : le a b = true
    · simp [hab]
    · simp [hab, mem_insertSorted le a x bs]
      tauto

theorem insertSorted_pairwise {α : Type} (le : α → α → Bool)
    (htrans : ∀ x y z, le x y = true → le y z = true → le x z = true)
    (htot : ∀ x y, (le x y || le y x) = true) (a : α) :
    ∀ l : List α, l.Pairwise (fun x y => le x y = true) →
      (insertSorted le a l).Pairwise (fun x y => le x y = true)
  | [], _ => by simp [insertSorted]
  | b :: bs, h => by
    rcases List.pairwise_cons.mp h with ⟨hb, hbs⟩
    unfold insertSorted
    by_cases hab : le a b = true
    · simp only [hab, if_true]
      refine List.pairwise_cons.mpr ⟨?_, h⟩
      intro x hx
      rcases List.mem_cons.mp hx with hxb | hxbs
      · exact hxb ▸ hab
      · exact htrans a b x hab (hb x hxbs)
    · simp only [hab, if_false]
      have hba : le b a = true := by
        have := htot a b
        rw [Bool.or_eq_true] at this
        tauto
      refine List.pairwise_cons.mpr ⟨?_, insertSorted_pairwise le htrans htot a bs hbs⟩
      intro x hx
      rcases (mem_insertSorted le a x bs).mp hx with hxa | hxbs
      · exact hxa ▸ hba
      · exact hb x hxbs

theorem sortByLe_pairwise {α : Type} (le : α → α → Bool)
    (htrans : ∀ x y z, le x y = true → le y z = true → le x z = true)
    (htot : ∀ x y, (le x y || le y x) = true) :
    ∀ l : List α, (sortByLe le l).Pairwise (fun x y => le x y = true)
  | [] => List.Pairwise.nil
  | a :: as => by
    unfold sortByLe
    exact insertSorted_pairwise le htrans htot a _ (sortByLe_pairwise le htrans htot as)

theorem mathCeilDiv_bounds (t l : Nat) (hl : 0 < l) :
    t ≤ mathCeilDiv t l * l ∧ mathCeilDiv t l * l < t + l := by
  unfold mathCeilDiv
  have h1 := Nat.div_add_mod (t + l - 1) l
  have h2 : (t + l - 1) % l < l := Nat.mod_lt _ hl
  have h3 : l * ((t + l - 1) / l) = (t + l - 1) - (t + l - 1) % l :=
    Nat.eq_sub_of_add_eq h1
  rw [Nat.mul_comm] at h3
  omega

theorem mathCeilDiv_eq_ceil (t l : Nat) (hl : 0 < l) :
    (mathCeilDiv t l : ℤ) = ⌈(t : ℚ) / (l : ℚ)⌉ := by
  obtain ⟨hb1, hb2⟩ := mathCeilDiv_bounds t l hl
  have hl' : (0 : ℚ) < (l : ℚ) := by exact_mod_cast hl
  rw [eq_comm, Int.ceil_eq_iff]
  constructor
  · rw [lt_div_iff₀ hl']
    have hc : ((mathCeilDiv t l * l : Nat) : ℚ) < ((t + l : Nat) : ℚ) := by
      exact_mod_cast hb2
    push_cast at hc ⊢
    linarith
  · rw [div_le_iff₀ hl']
    have hc : ((t : Nat) : ℚ) ≤ ((mathCeilDiv t l * l : Nat) : ℚ) := by
      exact_mod_cast hb1
    push_cast at hc ⊢
    linarith

/-! ### Claim theorems -/

/-- C10: for every filter document and user id, the whereClause string
returned by buildWhereClause contains exactly as many `?` placeholders as
there are elements in the returned params list; the correspondence is
clause-by-clause (each clause's fragment carries exactly as many
placeholders as the values pushed for it, in order) — including `in`
(one placeholder per list element) and `between` (two placeholders, two
pushed values). -/
theorem placeholder_param_balance (filters : JVal) (uid : Int) :
    countQ (buildWhereClause filters uid).1 = (buildWhereClause filters uid).2.length ∧
    ∀ a ∈ buildClauses filters uid, countQ a.fragment = a.binds.length := by
  have hall : ∀ a ∈ buildClauses filters uid, countQ a.fragment = a.binds.length := by
    intro a ha
    unfold buildClauses at ha
    rcases List.mem_cons.mp ha with h | h
    · subst h
      simp [Atom.fragment, Atom.binds]
      decide
    · split at h
      · simp only [List.mem_append] at h
        rcases h with ((((((((h | h) | h) | h) | h) | h) | h) | h) | h) | h
        · exact atom_balanced_of_mem_textAtoms _ _ (by decide) a h
        · exact atom_balanced_of_mem_textAtoms _ _ (by decide) a h
        · exact atom_balanced_of_mem_textAtoms _ _ (by decide) a h
        · exact atom_balanced_of_mem_enumAtoms _ _ (by decide) a h
        · exact atom_balanced_of_mem_enumAtoms _ _ (by decide) a h
        · exact atom_balanced_of_mem_numAtoms _ _ (by decide) a h
        · exact atom_balanced_of_mem_numAtoms _ _ (by decide) a h
        · exact atom_balanced_of_mem_dateAtoms _ _ (by decide) a h
        · exact atom_balanced_of_mem_dateAtoms _ _ (by decide) a h
        · exact atom_balanced_of_mem_boolAtoms _ a h
      · simp at h
  exact ⟨concat_balanced _ hall, hall⟩

/-- C1: for every filter document (including null, empty, or one naming
user_id) and every tenant, the compiled predicate begins with the
tenant-scope clause `WHERE user_id = ?` bound to the caller's user id as
the first parameter, and every row of the result set belongs to that
tenant — a list request by tenant A never returns a row whose user_id is
another tenant's, regardless of the filter document's content. -/
theorem tenant_scope_first (filters : JVal) (uid : Int) (st : List Lead) (r : Lead)
    (h : r ∈ execList st filters uid) :
    (∃ rest, (buildWhereClause filters uid).1 = "WHERE user_id = ?" ++ rest) ∧
    (buildWhereClause filters uid).2.head? = some (.num uid) ∧
    r.user_id = uid := by
  obtain ⟨t, ht⟩ : ∃ t, buildClauses filters uid = Atom.scope uid :: t := ⟨_, rfl⟩
  refine ⟨⟨concatFrags t, ?_⟩, ?_, ?_⟩
  · rw [buildWhereClause, ht]
    rfl
  · rw [buildWhereClause, ht]
    rfl
  · have hs := (mem_execList.mp h).2 (Atom.scope uid) (by rw [ht]; exact .head _)
    simpa [atomSat] using hs

/-- A concrete lead row used by the witnesses. -/
def demoLead : Lead :=
  { id := 1
    user_id := 1
    first_name := "Jane"
    last_name := "Doe"
    email := "jane.doe@example.com"
    phone := "(555) 123-4567"
    company := "TechCorp"
    city := "Austin"
    state := "TX"
    source := "website"
    status := "new"
    score := 55
    lead_value := 1000
    is_qualified := false
    last_activity_at := none
    created_at := "2024-03-01T10:00:00.000Z"
    updated_at := "2024-03-01T10:00:00.000Z" }

/-- Witness for C1 at a concrete store, row and tenant. -/
theorem tenant_scope_first_witness :
    demoLead ∈ execList [demoLead] JVal.null 1 ∧
    ((∃ rest, (buildWhereClause JVal.null 1).1 = "WHERE user_id = ?" ++ rest) ∧
     (buildWhereClause JVal.null 1).2.head? = some (.num 1) ∧
     demoLead.user_id = 1) := by
  have hm : demoLead ∈ execList [demoLead] JVal.null 1 := by decide
  exact ⟨hm, tenant_scope_first JVal.null 1 [demoLead] demoLead hm⟩

/-- C2 counterexample: a `between` filter whose value is a 3-element list
(not exactly 2 elements) DOES contribute a clause — the source only checks
`Array.isArray(value)` — so the claim "not exactly a 2-element list
contributes no clause" is false at this input. -/
theorem between_malformed_counterexample :
    (buildWhereClause (.obj [("score", .obj [("operator", .str "between"),
        ("value", .arr [.num 1, .num 2, .num 3])])]) 7).1
      = "WHERE user_id = ? AND score BETWEEN ? AND ?" ∧
    (buildWhereClause (.obj [("score", .obj [("operator", .str "between"),
        ("value", .arr [.num 1, .num 2, .num 3])])]) 7).1
      ≠ (buildWhereClause JVal.null 7).1 ∧
    (buildWhereClause (.obj [("score", .obj [("operator", .str "between"),
        ("value", .arr [.num 1, .num 2, .num 3])])]) 7).2.length = 3 := by
  refine ⟨rfl, ?_, rfl⟩
  decide

/-- C2 amended: a `between` filter whose value is not a list contributes no
clause for that field (and the request does not fail); a list value of any
length contributes a BETWEEN clause binding the list's first two elements
(undefined where absent); consequently a 2-element `[lo, hi]` value
restricts the result set to rows with the field in `[lo, hi]` inclusive. -/
theorem between_filter_behavior (col : String) (f : JVal) (xs : List JVal)
    (st : List Lead) (filters : JVal) (uid : Int) (lo hi : JVal) (r : Lead) :
    (getField f "operator" = .str "between" → isArr (getField f "value") = false →
       numAtoms col f = [] ∧ dateAtoms col f = []) ∧
    (truthy f = true → getField f "operator" = .str "between" →
       getField f "value" = .arr xs →
       numAtoms col f = [.betweenCol col (xs.getD 0 .undefined) (xs.getD 1 .undefined)] ∧
       dateAtoms col f = [.betweenCol col (xs.getD 0 .undefined) (xs.getD 1 .undefined)]) ∧
    (Atom.betweenCol col lo hi ∈ buildClauses filters uid →
       r ∈ execList st filters uid →
       jLe lo (rowGet r col) = true ∧ jLe (rowGet r col) hi = true) := by
  refine ⟨?_, ?_, ?_⟩
  · intro hop hnoarr
    constructor
    · simp [numAtoms, hop, hnoarr]
    · simp [dateAtoms, hop, hnoarr]
  · intro htr hop hval
    constructor
    · simp [numAtoms, htr, hop, hval, arrIdx, isArr]
    · simp [dateAtoms, htr, hop, hval, arrIdx, isArr]
  · intro hmem hexec
    have hs := (mem_execList.mp hexec).2 _ hmem
    simpa [atomSat, Bool.and_eq_true] using hs

/-- Witness for the amended C2: a non-list value yields no clause; a
2-element `[10, 60]` yields the BETWEEN clause on its two elements; and a
row in the result set (score 55) indeed lies within `[10, 60]`. -/
theorem between_filter_behavior_witness :
    (numAtoms "score" (JVal.obj [("operator", JVal.str "between"),
        ("value", JVal.str "oops")]) = [] ∧
     dateAtoms "score" (JVal.obj [("operator", JVal.str "between"),
        ("value", JVal.str "oops")]) = []) ∧
    (numAtoms "score" (JVal.obj [("operator", JVal.str "between"),
        ("value", JVal.arr [JVal.num 10, JVal.num 60])])
       = [.betweenCol "score" (.num 10) (.num 60)] ∧
     dateAtoms "score" (JVal.obj [("operator", JVal.str "between"),
        ("value", JVal.arr [JVal.num 10, JVal.num 60])])
       = [.betweenCol "score" (.num 10) (.num 60)]) ∧
    (jLe (.num 10) (rowGet demoLead "score") = true ∧
     jLe (rowGet demoLead "score") (.num 60) = true) := by
  refine ⟨?_, ?_, ?_⟩
  · exact (between_filter_behavior "score"
      (JVal.obj [("operator", JVal.str "between"), ("value", JVal.str "oops")])
      [] [] JVal.null 0 .undefined .undefined demoLead).1 rfl rfl
  · exact (between_filter_behavior "score"
      (JVal.obj [("operator", JVal.str "between"),
        ("value", JVal.arr [JVal.num 10, JVal.num 60])])
      [JVal.num 10, JVal.num 60] [] JVal.null 0 .undefined .undefined demoLead).2.1 rfl rfl rfl
  · have hmem : Atom.betweenCol "score" (.num 10) (.num 60) ∈
        buildClauses (.obj [("score", .obj [("operator", .str "between"),
          ("value", .arr [.num 10, .num 60])])]) 1 :=
      List.Mem.tail _ (List.Mem.head _)
    have hexec : demoLead ∈ execList [demoLead]
        (.obj [("score", .obj [("operator", .str "between"),
          ("value", .arr [.num 10, .num 60])])]) 1 := by decide
    exact (between_filter_behavior "score" JVal.null []
      [demoLead] (.obj [("score", .obj [("operator", .str "between"),
        ("value", .arr [.num 10, .num 60])])]) 1 (.num 10) (.num 60) demoLead).2.2
      hmem hexec

theorem mem_buildClauses_of_mem_boolAtoms {fs : List (String × JVal)} {uid : Int} {a : Atom}
    (h : a ∈ boolAtoms (getField (.obj fs) "is_qualified")) :
    a ∈ buildClauses (.obj fs) uid := by
  unfold buildClauses
  refine List.mem_cons.mpr (Or.inr ?_)
  rw [if_pos (show truthy (.obj fs) = true from rfl)]
  exact List.mem_append.mpr (Or.inr h)

/-- C8: the is_qualified clause is added whenever the key is present with
any value other than undefined — including `false` (bound as 0) — and the
compiled string then ends with the clause; when the key is absent, no
is_qualified equality clause exists in the predicate at all (the source
checks `!== undefined`, not falsiness). -/
theorem is_qualified_presence (fs : List (String × JVal)) (uid : Int) :
    (∀ v, fs.lookup "is_qualified" = some v → v ≠ .undefined →
       Atom.eqCol "is_qualified" (.num (if truthy v then 1 else 0))
         ∈ buildClauses (.obj fs) uid ∧
       ∃ pre, (buildWhereClause (.obj fs) uid).1 = pre ++ " AND is_qualified = ?") ∧
    (fs.lookup "is_qualified" = none →
       ∀ w, Atom.eqCol "is_qualified" w ∉ buildClauses (.obj fs) uid) := by
  constructor
  · intro v hv hne
    have hgf : getField (.obj fs) "is_qualified" = v := by simp [getField, hv]
    have hb : boolAtoms v = [Atom.eqCol "is_qualified" (.num (if truthy v then 1 else 0))] := by
      cases v
      · exact absurd rfl hne
      all_goals rfl
    constructor
    · exact mem_buildClauses_of_mem_boolAtoms (a := Atom.eqCol "is_qualified"
        (.num (if truthy v then 1 else 0))) (by rw [hgf, hb]; exact .head _)
    · obtain ⟨A, hA⟩ : ∃ A, buildClauses (.obj fs) uid
          = Atom.scope uid :: (A ++ boolAtoms (getField (.obj fs) "is_qualified")) :=
        ⟨_, rfl⟩
      refine ⟨"WHERE user_id = ?" ++ concatFrags A, ?_⟩
      have h1 : (buildWhereClause (.obj fs) uid).1
          = concatFrags (buildClauses (.obj fs) uid) := rfl
      rw [h1, hA, hgf, hb]
      simp [concatFrags, concatFrags_append, Atom.fragment, String.append_assoc]
  · intro hnone w hmem
    unfold buildClauses at hmem
    rcases List.mem_cons.mp hmem with h | h
    · exact Atom.noConfusion h
    · rw [if_pos (show truthy (.obj fs) = true from rfl)] at h
      simp only [List.mem_append] at h
      rcases h with ((((((((h | h) | h) | h) | h) | h) | h) | h) | h) | h
      · exact absurd (eqCol_mem_textAtoms h) (by decide)
      · exact absurd (eqCol_mem_textAtoms h) (by decide)
      · exact absurd (eqCol_mem_textAtoms h) (by decide)
      · exact absurd (eqCol_mem_enumAtoms h) (by decide)
      · exact absurd (eqCol_mem_enumAtoms h) (by decide)
      · exact absurd (eqCol_mem_numAtoms h) (by decide)
      · exact absurd (eqCol_mem_numAtoms h) (by decide)
      · exact eqCol_mem_dateAtoms h
      · exact eqCol_mem_dateAtoms h
      · have hgf : getField (.obj fs) "is_qualified" = .undefined := by simp [getField, hnone]
        rw [hgf] at h
        exact absurd h (by simp [boolAtoms])

/-- Witness for C8: presence with value `false` adds the clause bound to 0;
an empty filter object has no is_qualified clause. -/
theorem is_qualified_presence_witness :
    (Atom.eqCol "is_qualified" (.num 0)
       ∈ buildClauses (.obj [("is_qualified", .bool false)]) 1 ∧
     ∃ pre, (buildWhereClause (.obj [("is_qualified", .bool false)]) 1).1
       = pre ++ " AND is_qualified = ?") ∧
    (∀ w, Atom.eqCol "is_qualified" w ∉ buildClauses (.obj ([] : List (String × JVal))) 1) := by
  constructor
  · exact (is_qualified_presence [("is_qualified", .bool false)] 1).1
      (.bool false) rfl (by intro h; exact JVal.noConfusion h)
  · exact (is_qualified_presence [] 1).2 rfl

/-- The field names buildWhereClause inspects (spec §4.1 table). -/
def recognizedFields : List String :=
  ["email", "company", "city", "status", "source", "score", "lead_value",
   "created_at", "last_activity_at", "is_qualified"]

/-- The operator strings each recognized field's block matches on. -/
def permittedOps : String → List String
  | "email" => ["equals", "contains"]
  | "company" => ["equals", "contains"]
  | "city" => ["equals", "contains"]
  | "status" => ["equals", "in"]
  | "source" => ["equals", "in"]
  | "score" => ["equals", "gt", "lt", "between"]
  | "lead_value" => ["equals", "gt", "lt", "between"]
  | "created_at" => ["on", "before", "after", "between"]
  | "last_activity_at" => ["on", "before", "after", "between"]
  | _ => []

/-- C4: for every filter document, an entry whose field name is not one of
the recognized fields, or whose operator is not one of that field's
permitted operators, contributes nothing: adding or removing it leaves the
compiled predicate and bound-parameter list (hence the result set)
unchanged, and it is not an error. -/
theorem unknown_entries_ignored (fs : List (String × JVal)) (uid : Int)
    (name : String) (e : JVal) (k : String) (e2 : JVal) :
    (name ∉ recognizedFields →
       buildWhereClause (.obj ((name, e) :: fs)) uid = buildWhereClause (.obj fs) uid) ∧
    (k ∈ recognizedFields → k ≠ "is_qualified" →
       (∀ s ∈ permittedOps k, getField e2 "operator" ≠ .str s) →
       fs.lookup k = none →
       buildWhereClause (.obj ((k, e2) :: fs)) uid = buildWhereClause (.obj fs) uid) := by
  constructor
  · intro hname
    simp only [recognizedFields, List.mem_cons, List.not_mem_nil, or_false, not_or] at hname
    obtain ⟨h1, h2, h3, h4, h5, h6, h7, h8, h9, h10⟩ := hname
    have key : ∀ key2 : String, key2 ≠ name →
        getField (.obj ((name, e) :: fs)) key2 = getField (.obj fs) key2 := by
      intro key2 hk2
      simp [getField, lookup_cons_ne _ _ hk2]
    unfold buildWhereClause buildClauses
    rw [if_pos (show truthy (.obj ((name, e) :: fs)) = true from rfl),
      if_pos (show truthy (.obj fs) = true from rfl),
      key "email" (Ne.symm h1), key "company" (Ne.symm h2), key "city" (Ne.symm h3),
      key "status" (Ne.symm h4), key "source" (Ne.symm h5), key "score" (Ne.symm h6),
      key "lead_value" (Ne.symm h7), key "created_at" (Ne.symm h8),
      key "last_activity_at" (Ne.symm h9), key "is_qualified" (Ne.symm h10)]
  · intro hk hkq hop hnone
    simp only [recognizedFields, List.mem_cons, List.not_mem_nil, or_false] at hk
    rcases hk with hk | hk | hk | hk | hk | hk | hk | hk | hk | hk
    · subst hk
      have key : ∀ key2 : String, key2 ≠ "email" →
          getField (.obj (("email", e2) :: fs)) key2 = getField (.obj fs) key2 := by
        intro key2 hk2
        simp [getField, lookup_cons_ne _ _ hk2]
      have hhit : getField (.obj (("email", e2) :: fs)) "email" = e2 := by
        simp [getField, List.lookup]
      have hmiss : getField (.obj fs) "email" = .undefined := by
        simp [getField, hnone]
      have hnop : textAtoms "email" e2 = [] :=
        textAtoms_nop _ _ (hop "equals" (by decide)) (hop "contains" (by decide))
      unfold buildWhereClause buildClauses
      rw [if_pos (show truthy (.obj (("email", e2) :: fs)) = true from rfl),
        if_pos (show truthy (.obj fs) = true from rfl),
        hhit, hmiss, hnop,
        show textAtoms "email" JVal.undefined = [] from rfl,
        key "company" (by decide),
        key "city" (by decide),
        key "status" (by decide),
        key "source" (by decide),
        key "score" (by decide),
        key "lead_value" (by decide),
        key "created_at" (by decide),
        key "last_activity_at" (by decide),
        key "is_qualified" (by decide)]
    · subst hk
      have key : ∀ key2 : String, key2 ≠ "company" →
          getField (.obj (("company", e2) :: fs)) key2 = getField (.obj fs) key2 := by
        intro key2 hk2
        simp [getField, lookup_cons_ne _ _ hk2]
      have hhit : getField (.obj (("company", e2) :: fs)) "company" = e2 := by
        simp [getField, List.lookup]
      have hmiss : getField (.obj fs) "company" = .undefined := by
        simp [getField, hnone]
      have hnop : textAtoms "company" e2 = [] :=
        textAtoms_nop _ _ (hop "equals" (by decide)) (hop "contains" (by decide))
      unfold buildWhereClause buildClauses
      rw [if_pos (show truthy (.obj (("company", e2) :: fs)) = true from rfl),
        if_pos (show truthy (.obj fs) = true from rfl),
        hhit, hmiss, hnop,
        show textAtoms "company" JVal.undefined = [] from rfl,
        key "email" (by decide),
        key "city" (by decide),
        key "status" (by decide),
        key "source" (by decide),
        key "score" (by decide),
        key "lead_value" (by decide),
        key "created_at" (by decide),
        key "last_activity_at" (by decide),
        key "is_qualified" (by decide)]
    · subst hk
      have key : ∀ key2 : String, key2 ≠ "city" →
          getField (.obj (("city", e2) :: fs)) key2 = getField (.obj fs) key2 := by
        intro key2 hk2
        simp [getField, lookup_cons_ne _ _ hk2]
      have hhit : getField (.obj (("city", e2) :: fs)) "city" = e2 := by
        simp [getField, List.lookup]
      have hmiss : getField (.obj fs) "city" = .undefined := by
        simp [getField, hnone]
      have hnop : textAtoms "city" e2 = [] :=
        textAtoms_nop _ _ (hop "equals" (by decide)) (hop "contains" (by decide))
      unfold buildWhereClause buildClauses
      rw [if_pos (show truthy (.obj (("city", e2) :: fs)) = true from rfl),
        if_pos (show truthy (.obj fs) = true from rfl),
        hhit, hmiss, hnop,
        show textAtoms "city" JVal.undefined = [] from rfl,
        key "email" (by decide),
        key "company" (by decide),
        key "status" (by decide),
        key "source" (by decide),
        key "score" (by decide),
        key "lead_value" (by decide),
        key "created_at" (by decide),
        key "last_activity_at" (by decide),
        key "is_qualified" (by decide)]
    · subst hk
      have key : ∀ key2 : String, key2 ≠ "status" →
          getField (.obj (("status", e2) :: fs)) key2 = getField (.obj fs) key2 := by
        intro key2 hk2
        simp [getField, lookup_cons_ne _ _ hk2]
      have hhit : getField (.obj (("status", e2) :: fs)) "status" = e2 := by
        simp [getField, List.lookup]
      have hmiss : getField (.obj fs) "status" = .undefined := by
        simp [getField, hnone]
      have hnop : enumAtoms "status" e2 = [] :=
        enumAtoms_nop _ _ (hop "equals" (by decide)) (hop "in" (by decide))
      unfold buildWhereClause buildClauses
      rw [if_pos (show truthy (.obj (("status", e2) :: fs)) = true from rfl),
        if_pos (show truthy (.obj fs) = true from rfl),
        hhit, hmiss, hnop,
        show enumAtoms "status" JVal.undefined = [] from rfl,
        key "email" (by decide),
        key "company" (by decide),
        key "city" (by decide),
        key "source" (by decide),
        key "score" (by decide),
        key "lead_value" (by decide),
        key "created_at" (by decide),
        key "last_activity_at" (by decide),
        key "is_qualified" (by decide)]
    · subst hk
      have key : ∀ key2 : String, key2 ≠ "source" →
          getField (.obj (("source", e2) :: fs)) key2 = getField (.obj fs) key2 := by
        intro key2 hk2
        simp [getField, lookup_cons_ne _ _ hk2]
      have hhit : getField (.obj (("source", e2) :: fs)) "source" = e2 := by
        simp [getField, List.lookup]
      have hmiss : getField (.obj fs) "source" = .undefined := by
        simp [getField, hnone]
      have hnop : enumAtoms "source" e2 = [] :=
        enumAtoms_nop _ _ (hop "equals" (by decide)) (hop "in" (by decide))
      unfold buildWhereClause buildClauses
      rw [if_pos (show truthy (.obj (("source", e2) :: fs)) = true from rfl),
        if_pos (show truthy (.obj fs) = true from rfl),
        hhit, hmiss, hnop,
        show enumAtoms "source" JVal.undefined = [] from rfl,
        key "email" (by decide),
        key "company" (by decide),
        key "city" (by decide),
        key "status" (by decide),
        key "score" (by decide),
        key "lead_value" (by decide),
        key "created_at" (by decide),
        key "last_activity_at" (by decide),
        key "is_qualified" (by decide)]
    · subst hk
      have key : ∀ key2 : String, key2 ≠ "score" →
          getField (.obj (("score", e2) :: fs)) key2 = getField (.obj fs) key2 := by
        intro key2 hk2
        simp [getField, lookup_cons_ne _ _ hk2]
      have hhit : getField (.obj (("score", e2) :: fs)) "score" = e2 := by
        simp [getField, List.lookup]
      have hmiss : getField (.obj fs) "score" = .undefined := by
        simp [getField, hnone]
      have hnop : numAtoms "score" e2 = [] :=
        numAtoms_nop _ _ (hop "equals" (by decide)) (hop "gt" (by decide)) (hop "lt" (by decide)) (hop "between" (by decide))
      unfold buildWhereClause buildClauses
      rw [if_pos (show truthy (.obj (("score", e2) :: fs)) = true from rfl),
        if_pos (show truthy (.obj fs) = true from rfl),
        hhit, hmiss, hnop,
        show numAtoms "score" JVal.undefined = [] from rfl,
        key "email" (by decide),
        key "company" (by decide),
        key "city" (by decide),
        key "status" (by decide),
        key "source" (by decide),
        key "lead_value" (by decide),
        key "created_at" (by decide),
        key "last_activity_at" (by decide),
        key "is_qualified" (by decide)]
    · subst hk
      have key : ∀ key2 : String, key2 ≠ "lead_value" →
          getField (.obj (("lead_value", e2) :: fs)) key2 = getField (.obj fs) key2 := by
        intro key2 hk2
        simp [getField, lookup_cons_ne _ _ hk2]
      have hhit : getField (.obj (("lead_value", e2) :: fs)) "lead_value" = e2 := by
        simp [getField, List.lookup]
      have hmiss : getField (.obj fs) "lead_value" = .undefined := by
        simp [getField, hnone]
      have hnop : numAtoms "lead_value" e2 = [] :=
        numAtoms_nop _ _ (hop "equals" (by decide)) (hop "gt" (by decide)) (hop "lt" (by decide)) (hop "between" (by decide))
      unfold buildWhereClause buildClauses
      rw [if_pos (show truthy (.obj (("lead_value", e2) :: fs)) = true from rfl),
        if_pos (show truthy (.obj fs) = true from rfl),
        hhit, hmiss, hnop,
        show numAtoms "lead_value" JVal.undefined = [] from rfl,
        key "email" (by decide),
        key "company" (by decide),
        key "city" (by decide),
        key "status" (by decide),
        key "source" (by decide),
        key "score" (by decide),
        key "created_at" (by decide),
        key "last_activity_at" (by decide),
        key "is_qualified" (by decide)]
    · subst hk
      have key : ∀ key2 : String, key2 ≠ "created_at" →
          getField (.obj (("created_at", e2) :: fs)) key2 = getField (.obj fs) key2 := by
        intro key2 hk2
        simp [getField, lookup_cons_ne _ _ hk2]
      have hhit : getField (.obj (("created_at", e2) :: fs)) "created_at" = e2 := by
        simp [getField, List.lookup]
      have hmiss : getField (.obj fs) "created_at" = .undefined := by
        simp [getField, hnone]
      have hnop : dateAtoms "created_at" e2 = [] :=
        dateAtoms_nop _ _ (hop "on" (by decide)) (hop "before" (by decide)) (hop "after" (by decide)) (hop "between" (by decide))
      unfold buildWhereClause buildClauses
      rw [if_pos (show truthy (.obj (("created_at", e2) :: fs)) = true from rfl),
        if_pos (show truthy (.obj fs) = true from rfl),
        hhit, hmiss, hnop,
        show dateAtoms "created_at" JVal.undefined = [] from rfl,
        key "email" (by decide),
        key "company" (by decide),
        key "city" (by decide),
        key "status" (by decide),
        key "source" (by decide),
        key "score" (by decide),
        key "lead_value" (by decide),
        key "last_activity_at" (by decide),
        key "is_qualified" (by decide)]
    · subst hk
      have key : ∀ key2 : String, key2 ≠ "last_activity_at" →
          getField (.obj (("last_activity_at", e2) :: fs)) key2 = getField (.obj fs) key2 := by
        intro key2 hk2
        simp [getField, lookup_cons_ne _ _ hk2]
      have hhit : getField (.obj (("last_activity_at", e2) :: fs)) "last_activity_at" = e2 := by
        simp [getField, List.lookup]
      have hmiss : getField (.obj fs) "last_activity_at" = .undefined := by
        simp [getField, hnone]
      have hnop : dateAtoms "last_activity_at" e2 = [] :=
        dateAtoms_nop _ _ (hop "on" (by decide)) (hop "before" (by decide)) (hop "after" (by decide)) (hop "between" (by decide))
      unfold buildWhereClause buildClauses
      rw [if_pos (show truthy (.obj (("last_activity_at", e2) :: fs)) = true from rfl),
        if_pos (show truthy (.obj fs) = true from rfl),
        hhit, hmiss, hnop,
        show dateAtoms "last_activity_at" JVal.undefined = [] from rfl,
        key "email" (by decide),
        key "company" (by decide),
        key "city" (by decide),
        key "status" (by decide),
        key "source" (by decide),
        key "score" (by decide),
        key "lead_value" (by decide),
        key "created_at" (by decide),
        key "is_qualified" (by decide)]
    · exact absurd hk hkq

/-- Witness for C4: an unrecognized field name (`bogus`) and an
unrecognized operator (`like` on `score`) each leave the compiled
predicate and bound values unchanged. -/
theorem unknown_entries_ignored_witness :
    buildWhereClause (.obj [("bogus", .obj [("operator", .str "equals"), ("value", .str "x")]),
        ("status", .obj [("operator", .str "equals"), ("value", .str "new")])]) 1
      = buildWhereClause (.obj [("status", .obj [("operator", .str "equals"),
          ("value", .str "new")])]) 1 ∧
    buildWhereClause (.obj [("score", .obj [("operator", .str "like"), ("value", .num 5)])]) 1
      = buildWhereClause (.obj ([] : List (String × JVal))) 1 := by
  constructor
  · exact (unknown_entries_ignored
      [("status", .obj [("operator", .str "equals"), ("value", .str "new")])] 1
      "bogus" (.obj [("operator", .str "equals"), ("value", .str "x")]) "x" .undefined).1
      (by decide)
  · exact (unknown_entries_ignored [] 1 "x" .undefined "score"
      (.obj [("operator", .str "like"), ("value", .num 5)])).2
      (by decide) (by decide)
      (by
        intro s hs
        rw [show getField (JVal.obj [("operator", JVal.str "like"), ("value", JVal.num 5)])
          "operator" = JVal.str "like" from rfl]
        simp only [permittedOps, List.mem_cons, List.not_mem_nil, or_false] at hs
        rcases hs with rfl | rfl | rfl | rfl <;> (intro h; simp at h))
      rfl

/-- C3: for every list request with page P and limit L ≥ 1, the executor
computes offset = (P − 1) · L (the returned rows are the window of that
offset and length L over the matching rows), sets total to the count of
rows matching the predicate, and sets totalPages to the ceiling of
total / L; when total = 0 it returns totalPages = 0 and data = []. -/
theorem pagination_arithmetic (st : List Lead) (filters : JVal) (uid : Int)
    (page limit : Nat) (hl : 0 < limit) :
    (executeList st filters uid page limit).total = (execList st filters uid).length ∧
    (executeList st filters uid page limit).data
      = ((sortByLe byNewest (execList st filters uid)).drop ((page - 1) * limit)).take limit ∧
    ((executeList st filters uid page limit).totalPages : ℤ)
      = ⌈((executeList st filters uid page limit).total : ℚ) / (limit : ℚ)⌉ ∧
    ((executeList st filters uid page limit).total = 0 →
       (executeList st filters uid page limit).totalPages = 0 ∧
       (executeList st filters uid page limit).data = []) := by
  refine ⟨rfl, rfl, ?_, ?_⟩
  · exact mathCeilDiv_eq_ceil _ _ hl
  · intro h0
    have hm : execList st filters uid = [] := List.length_eq_zero.mp h0
    constructor
    · show mathCeilDiv (execList st filters uid).length limit = 0
      rw [hm]
      show (0 + limit - 1) / limit = 0
      exact Nat.div_eq_of_lt (by omega)
    · show ((sortByLe byNewest (execList st filters uid)).drop ((page - 1) * limit)).take limit = []
      rw [hm]
      simp [sortByLe]

/-- Witness for C3 at a one-row store, page 1, limit 20. -/
theorem pagination_arithmetic_witness :
    (0 : Nat) < 20 ∧
    ((executeList [demoLead] JVal.null 1 1 20).total = (execList [demoLead] JVal.null 1).length ∧
     (executeList [demoLead] JVal.null 1 1 20).data
       = ((sortByLe byNewest (execList [demoLead] JVal.null 1)).drop ((1 - 1) * 20)).take 20 ∧
     ((executeList [demoLead] JVal.null 1 1 20).totalPages : ℤ)
       = ⌈((executeList [demoLead] JVal.null 1 1 20).total : ℚ) / ((20 : Nat) : ℚ)⌉ ∧
     ((executeList [demoLead] JVal.null 1 1 20).total = 0 →
        (executeList [demoLead] JVal.null 1 1 20).totalPages = 0 ∧
        (executeList [demoLead] JVal.null 1 1 20).data = [])) :=
  ⟨by decide, pagination_arithmetic [demoLead] JVal.null 1 1 20 (by decide)⟩

/-- C7: the row query uses the same predicate and bound values as the
count query, orders rows by created_at descending, and appends exactly two
further bound values — limit then offset, in that order — to the end of
the predicate's bound-value list; correspondingly the rows produced by the
executor are sorted newest-first. -/
theorem row_query_shape (filters : JVal) (uid : Int) (limit offset : Int)
    (st : List Lead) (page lim : Nat) :
    (∃ wc ps, buildWhereClause filters uid = (wc, ps) ∧
       countQuery filters uid = ("SELECT COUNT(*) as total FROM leads " ++ wc, ps) ∧
       rowsQuery filters uid limit offset
         = ("SELECT * FROM leads " ++ wc ++ " ORDER BY created_at DESC LIMIT ? OFFSET ?",
            ps ++ [.num limit, .num offset])) ∧
    (rowsQuery filters uid limit offset).2
      = (countQuery filters uid).2 ++ [.num limit, .num offset] ∧
    List.Pairwise (fun a b => byNewest a b = true)
      (executeList st filters uid page lim).data := by
  refine ⟨⟨(buildWhereClause filters uid).1, (buildWhereClause filters uid).2,
    rfl, rfl, rfl⟩, rfl, ?_⟩
  have hs := sortByLe_pairwise byNewest byNewest_trans byNewest_total (execList st filters uid)
  have hsub : (((sortByLe byNewest (execList st filters uid)).drop
      ((page - 1) * lim)).take lim).Sublist (sortByLe byNewest (execList st filters uid)) :=
    (List.take_sublist _ _).trans (List.drop_sublist _ _)
  exact List.Pairwise.sublist hsub hs

/-- C9: when the filters query parameter is present but not parseable as
JSON, the list endpoint returns the invalid-filters client error —
distinct from the validation, not-found, and store-error responses — and
issues no store reads. -/
theorem invalid_filters_rejected (parse : String → Option JVal) (st : List Lead) (uid : Int)
    (pageQ limitQ : Option Int) (s : String)
    (hv : (validPageQ pageQ && validLimitQ limitQ) = true) (hp : parse s = none) :
    getLeadsRoute parse st uid pageQ limitQ (some s) = (.invalidFilters, 0) ∧
    Resp.invalidFilters ≠ Resp.validationError ∧
    Resp.invalidFilters ≠ Resp.notFound ∧
    (∀ m, Resp.invalidFilters ≠ Resp.dbError m) ∧
    Resp.invalidFilters.status = 400 := by
  refine ⟨?_, by decide, by decide, ?_, rfl⟩
  · unfold getLeadsRoute
    rw [if_pos hv]
    simp [hp]
  · intro m
    exact fun h => Resp.noConfusion h

/-- Witness for C9: an unparseable filters string is rejected with zero
store reads. -/
theorem invalid_filters_rejected_witness :
    getLeadsRoute (fun _ => none) [] 1 none none (some "oops") = (.invalidFilters, 0) ∧
    Resp.invalidFilters ≠ Resp.validationError ∧
    Resp.invalidFilters ≠ Resp.notFound ∧
    (∀ m, Resp.invalidFilters ≠ Resp.dbError m) ∧
    Resp.invalidFilters.status = 400 :=
  invalid_filters_rejected (fun _ => none) [] 1 none none "oops" rfl rfl

/-- C6: a fetch, update, or delete for a lead id with no row owned by the
caller — whether the id is absent altogether or owned by a different
tenant — yields the one constant not-found response (`Resp.notFound`,
status 404, error "Lead not found", message "Lead does not exist") and
leaves the store unchanged, so the caller cannot distinguish the two
situations. -/
theorem not_found_indistinguishable (st : List Lead) (i uid : Int) (b : LeadBody)
    (now : String) (h : ∀ r ∈ st, ¬(r.id = i ∧ r.user_id = uid)) :
    getLeadRoute st i uid = .notFound ∧
    updateLeadRoute st i uid b now = (.notFound, st) ∧
    deleteLeadRoute st i uid = (.notFound, st) := by
  have hfind : st.find? (fun r => r.id == i && r.user_id == uid) = none := by
    rw [List.find?_eq_none]
    intro r hr
    simp only [Bool.and_eq_true, beq_iff_eq, not_and]
    exact fun h1 h2 => h r hr ⟨h1, h2⟩
  have hfil : st.filter (fun r => !(r.id == i && r.user_id == uid)) = st := by
    rw [List.filter_eq_self]
    intro r hr
    simp only [Bool.not_eq_true', Bool.and_eq_false_iff]
    by_cases h1 : r.id = i
    · right
      simp only [beq_eq_false_iff_ne]
      exact fun h2 => h r hr ⟨h1, h2⟩
    · left
      simp only [beq_eq_false_iff_ne]
      exact h1
  refine ⟨?_, ?_, ?_⟩
  · unfold getLeadRoute
    rw [hfind]
  · unfold updateLeadRoute
    rw [hfind]
  · unfold deleteLeadRoute
    rw [hfil]
    simp

/-- A request body used by the witnesses (same email as `demoLead`). -/
def demoBody : LeadBody :=
  { first_name := "Jane"
    last_name := "Doe"
    email := "jane.doe@example.com"
    phone := ""
    company := ""
    city := ""
    state := ""
    source := "referral"
    status := "new"
    score := 0
    lead_value := 0
    is_qualified := false }

/-- Witness for C6: an absent id (99) and a cross-tenant request (id 1 as
tenant 2) produce the identical not-found outcome with the store intact. -/
theorem not_found_indistinguishable_witness :
    (getLeadRoute [demoLead] 99 1 = .notFound ∧
     updateLeadRoute [demoLead] 99 1 demoBody "t" = (.notFound, [demoLead]) ∧
     deleteLeadRoute [demoLead] 99 1 = (.notFound, [demoLead])) ∧
    (getLeadRoute [demoLead] 1 2 = .notFound ∧
     updateLeadRoute [demoLead] 1 2 demoBody "t" = (.notFound, [demoLead]) ∧
     deleteLeadRoute [demoLead] 1 2 = (.notFound, [demoLead])) := by
  constructor
  · exact not_found_indistinguishable [demoLead] 99 1 demoBody "t" (by decide)
  · exact not_found_indistinguishable [demoLead] 1 2 demoBody "t" (by decide)

/-- C5: creating a lead whose email equals an existing lead's email of the
same tenant fails with the conflict response and inserts nothing; when the
tenant holds no lead with that email (in particular when only other
tenants do), the create succeeds and appends the new row; and the
`(user_id, email)` uniqueness invariant is preserved by every create. -/
theorem create_unique_email (st : List Lead) (uid : Int) (b : LeadBody) (now : String) :
    ((∃ r ∈ st, r.user_id = uid ∧ r.email = b.email) →
       createLeadRoute st uid b now
         = (.conflict "Lead already exists" "A lead with this email already exists", st)) ∧
    ((∀ r ∈ st, r.user_id = uid → r.email ≠ b.email) →
       ∃ nr, createLeadRoute st uid b now = (.okCreated nr, st ++ [nr]) ∧
         nr.user_id = uid ∧ nr.email = b.email) ∧
    (UniqueEmails st → UniqueEmails (createLeadRoute st uid b now).2) := by
  rcases hfind : st.find? (fun r => r.user_id == uid && r.email == b.email) with _ | r
  · have hnone : ∀ r ∈ st, ¬(r.user_id = uid ∧ r.email = b.email) := by
      intro r hr
      have hc := List.find?_eq_none.mp hfind r hr
      simpa [Bool.and_eq_true] using hc
    refine ⟨?_, ?_, ?_⟩
    · rintro ⟨r, hr, h1, h2⟩
      exact absurd ⟨h1, h2⟩ (hnone r hr)
    · intro _
      refine ⟨{ id := nextId st, user_id := uid, first_name := b.first_name,
                last_name := b.last_name, email := b.email, phone := b.phone,
                company := b.company, city := b.city, state := b.state,
                source := b.source, status := b.status, score := b.score,
                lead_value := b.lead_value, is_qualified := b.is_qualified,
                last_activity_at := some now, created_at := now,
                updated_at := now }, ?_, rfl, rfl⟩
      unfold createLeadRoute
      rw [hfind]
    · intro hu
      unfold createLeadRoute
      rw [hfind]
      unfold UniqueEmails
      rw [List.pairwise_append]
      refine ⟨hu, by simp, ?_⟩
      intro a ha c hc
      simp only [List.mem_singleton] at hc
      subst hc
      rintro ⟨h1, h2⟩
      exact hnone a ha ⟨h1, h2⟩
  · have hp := List.find?_some hfind
    have hr_mem := List.mem_of_find?_eq_some hfind
    obtain ⟨h1, h2⟩ : r.user_id = uid ∧ r.email = b.email := by
      simpa [Bool.and_eq_true] using hp
    refine ⟨?_, ?_, ?_⟩
    · intro _
      unfold createLeadRoute
      rw [hfind]
    · intro hall
      exact absurd h2 (hall r hr_mem h1)
    · intro hu
      unfold createLeadRoute
      rw [hfind]
      exact hu

/-- Witness for C5: same email under the same tenant conflicts and leaves
the store unchanged; the same email under tenant 2 succeeds; uniqueness is
preserved. -/
theorem create_unique_email_witness :
    createLeadRoute [demoLead] 1 demoBody "2024-04-01T00:00:00.000Z"
      = (.conflict "Lead already exists" "A lead with this email already exists",
         [demoLead]) ∧
    (∃ nr, createLeadRoute [demoLead] 2 demoBody "2024-04-01T00:00:00.000Z"
       = (.okCreated nr, [demoLead] ++ [nr]) ∧ nr.user_id = 2 ∧ nr.email = demoBody.email) ∧
    UniqueEmails (createLeadRoute [demoLead] 2 demoBody "2024-04-01T00:00:00.000Z").2 := by
  refine ⟨?_, ?_, ?_⟩
  · exact (create_unique_email [demoLead] 1 demoBody "2024-04-01T00:00:00.000Z").1
      ⟨demoLead, List.mem_singleton.mpr rfl, rfl, rfl⟩
  · exact (create_unique_email [demoLead] 2 demoBody "2024-04-01T00:00:00.000Z").2.1
      (by decide)
  · exact (create_unique_email [demoLead] 2 demoBody "2024-04-01T00:00:00.000Z").2.2
      (by simp [UniqueEmails])
